import Mathlib

/-!
Shallow embedding of the CSKEL skeleton extractor and analyzer
(`cskel/extractor.py`, `cskel/analyzer.py`), together with proofs about
level resolution, body elision, call/comment summarization, and the
statistics collector.
-/

set_option maxHeartbeats 1000000

namespace CSkel

/-- Embedding of the libcst expression nodes the tool inspects.
`call` inlines each `cst.Arg`'s `value` field (the only field the
tool ever reads of an argument).  `integer` carries the literal's
numeric value: Python integer literals are digit strings, hence
non-negative, so the payload is a `Nat`. -/
inductive Expr where
  | name (value : String)
  | integer (value : Nat)
  | call (func : Expr) (args : List Expr)
  | simpleString (value : String)
  | concatenatedString (value : String)
  | attribute (obj : Expr) (attr : String)
  | unaryOp (op : String) (operand : Expr)
deriving Repr

/-- Small statements occurring inside a `cst.SimpleStatementLine`. -/
inductive SmallStmt where
  | expr (value : Expr)
  | assign (targets : List Expr) (value : Expr)
  | pass
  | raiseStmt (value : Option Expr)
  | ret (value : Option Expr)
deriving Repr

/-- Statement-level nodes.  `simple` is a `cst.SimpleStatementLine` with an
optional trailing comment; `emptyLine` is a `cst.EmptyLine` with an
optional comment (the transformer synthesizes these);
`functionDef` flattens `cst.FunctionDef` (decorators inline each
`cst.Decorator`'s `decorator` expression, `body` is the
`IndentedBlock.body` list, `params`/`returns`/`whitespaceMeta` stand for
the fields the tool copies verbatim); `compound` covers `If`/`While`/...
nodes with a test expression and a nested body. -/
inductive Stmt where
  | simple (body : List SmallStmt) (trailingComment : Option String)
  | emptyLine (comment : Option String)
  | functionDef (name : String) (params : String) (decorators : List Expr)
      (body : List Stmt) (returns : Option String) (whitespaceMeta : String)
  | classDef (name : String) (body : List Stmt)
  | compound (kind : String) (test : Option Expr) (body : List Stmt)
deriving Repr

/-- A module is its top-level statement list (`cst.Module.body`). -/
abbrev Module := List Stmt

/-- The decorator-matching test inside `SkeletonTransformer.get_code_level`
(extractor.py lines 34-40): the decorator expression must be a `Call`
whose `func` is the `Name` `code_level`, with a non-empty argument list
whose first argument value is an `Integer`; the result is that literal's
value.  Any other shape yields `none`. -/
def markerLevel : Expr → Option Int
  | .call (.name fn) (a :: _) =>
      if fn = "code_level" then
        match a with
        | .integer n => some (n : Int)
        | _ => none
      else none
  | _ => none

/-- `SkeletonTransformer.get_code_level`: scan the decorator list in source
order, return the first marker value, else the file-level default. -/
def get_code_level (file_level : Int) : List Expr → Int
  | [] => file_level
  | d :: ds =>
      match markerLevel d with
      | some n => n
      | none => get_code_level file_level ds

/-- `_get_file_level` (extractor.py lines 97-107): scan the module's
top-level statements for the first `__code_level__ = <Integer>` simple
assignment; a `__code_level__` assignment whose value is not an integer
literal is skipped and scanning continues.  Default 0. -/
def _get_file_level : Module → Int
  | [] => 0
  | .simple [.assign [.name t] v] _ :: rest =>
      if t = "__code_level__" then
        match v with
        | .integer n => (n : Int)
        | _ => _get_file_level rest
      else _get_file_level rest
  | _ :: rest => _get_file_level rest

/- `Module.code_for_node` on a call: a source printer for expressions.
(The faithful-reprint contract of libcst makes this the call's original
source text; the tool only ever embeds the rendered text in a comment.) -/
mutual
def renderExpr : Expr → String
  | .name v => v
  | .integer n => toString n
  | .call f args => renderExpr f ++ "(" ++ renderExprs args ++ ")"
  | .simpleString s => s
  | .concatenatedString s => s
  | .attribute o a => renderExpr o ++ "." ++ a
  | .unaryOp op e => op ++ renderExpr e
def renderExprs : List Expr → String
  | [] => ""
  | [e] => renderExpr e
  | e :: es => renderExpr e ++ ", " ++ renderExprs es
end

/-- `CallCollector` restricted to one expression: `visit_Call` records the
call and returns `False`, so calls nested inside a collected call's
`func` or arguments are not collected; all other expression nodes are
traversed. -/
def collectCallsExpr : Expr → List Expr
  | .call f args => [.call f args]
  | .attribute o _ => collectCallsExpr o
  | .unaryOp _ e => collectCallsExpr e
  | _ => []

/-- `CallCollector` over a small statement (libcst visits `Assign` targets
before its value). -/
def collectCallsSmall : SmallStmt → List Expr
  | .expr e => collectCallsExpr e
  | .assign ts v => (ts.map collectCallsExpr).flatten ++ collectCallsExpr v
  | .pass => []
  | .raiseStmt v => (v.map collectCallsExpr).getD []
  | .ret v => (v.map collectCallsExpr).getD []

/- `CallCollector` over statements and statement lists: the visitor
descends into every child subtree, including the decorators and bodies of
nested function and class definitions. -/
mutual
def collectCallsStmt : Stmt → List Expr
  | .simple body _ => (body.map collectCallsSmall).flatten
  | .emptyLine _ => []
  | .functionDef _ _ ds b _ _ =>
      (ds.map collectCallsExpr).flatten ++ collectCallsStmts b
  | .classDef _ b => collectCallsStmts b
  | .compound _ t b =>
      (t.map collectCallsExpr).getD [] ++ collectCallsStmts b
def collectCallsStmts : List Stmt → List Expr
  | [] => []
  | s :: ss => collectCallsStmt s ++ collectCallsStmts ss
end

/- `CommentCollector` over statements and statement lists: every
`cst.Comment` node in the subtree, in traversal order.  (The `id`-based
dedup set in the source never filters anything during a single traversal
of a parsed tree, since each comment node is a distinct object visited
once.) -/
mutual
def collectCommentsStmt : Stmt → List String
  | .simple _ tc => tc.toList
  | .emptyLine c => c.toList
  | .functionDef _ _ _ b _ _ => collectCommentsStmts b
  | .classDef _ b => collectCommentsStmts b
  | .compound _ _ b => collectCommentsStmts b
def collectCommentsStmts : List Stmt → List String
  | [] => []
  | s :: ss => collectCommentsStmt s ++ collectCommentsStmts ss
end

/-- `SkeletonTransformer._get_docstring_statement`: the first statement of
the body, provided it is a simple statement line whose single small
statement is an expression statement of a string literal (simple or
concatenated).  The whole statement line (trailing comment included) is
returned. -/
def _get_docstring_statement (body : List Stmt) : Option Stmt :=
  match body with
  | .simple [.expr (.simpleString s)] tc :: _ =>
      some (.simple [.expr (.simpleString s)] tc)
  | .simple [.expr (.concatenatedString s)] tc :: _ =>
      some (.simple [.expr (.concatenatedString s)] tc)
  | _ => none

/-- `b` begins with `a` (over reversed character lists this is the
suffix test; spelled out structurally so that it evaluates in the
kernel). -/
def charsBeginWith : List Char → List Char → Bool
  | _, [] => true
  | [], _ :: _ => false
  | a :: as, b :: bs => a == b && charsBeginWith as bs

/-- Python's `str.endswith`: `s` ends with `p`. -/
def strEndsWith (s p : String) : Bool :=
  charsBeginWith s.data.reverse p.data.reverse

/-- The `call_node.func` test of the filter inside `leave_FunctionDef`
(extractor.py line 64): the callee is a bare `Name` whose value ends in
`"Error"`. -/
def isErrorCall : Expr → Bool
  | .call (.name v) _ => strEndsWith v "Error"
  | _ => false

/-- The configuration fields of `SkeletonTransformer` (the `module` field
is only used for `code_for_node`, embedded as `renderExpr`). -/
structure SkeletonTransformer where
  min_level : Int
  file_level : Int
  preserve_calls : Bool

/-- The replacement-body construction of `leave_FunctionDef`
(extractor.py lines 50-80), applied to the ORIGINAL (pre-rewrite)
function body: docstring first, then (when calls are preserved and the
collected call list is non-empty) the `# Important calls:` header
followed by one comment line per collected call that is not an
Error-named bare call, then the collected comments (preceded by a blank
line when the call section was emitted), then the single `pass`
placeholder. -/
def rebuildBody (t : SkeletonTransformer) (origBody : List Stmt) : List Stmt :=
  let docPart : List Stmt :=
    match _get_docstring_statement origBody with
    | some d => [d]
    | none => []
  let calls : List Expr :=
    if t.preserve_calls then collectCallsStmts origBody else []
  let callPart : List Stmt :=
    if t.preserve_calls && !calls.isEmpty then
      Stmt.emptyLine (some "# Important calls:") ::
        calls.filterMap (fun c =>
          if isErrorCall c then none
          else some (Stmt.emptyLine (some ("# → " ++ renderExpr c))))
    else []
  let comments := collectCommentsStmts origBody
  let commentPart : List Stmt :=
    if !comments.isEmpty then
      (if t.preserve_calls && !calls.isEmpty then [Stmt.emptyLine none] else [])
        ++ comments.map (fun c => Stmt.emptyLine (some c))
    else []
  docPart ++ callPart ++ commentPart ++ [Stmt.simple [.pass] none]

/-- `updated_node.with_changes(body=cst.IndentedBlock(body=...))`:
replace only the `body` field of a function definition node. -/
def withBody (s : Stmt) (newBody : List Stmt) : Stmt :=
  match s with
  | .functionDef n p ds _ r w => .functionDef n p ds newBody r w
  | other => other

/-- `SkeletonTransformer.leave_FunctionDef`: the resolved level is read
from the ORIGINAL node's decorators; at or above the threshold the
(already-rewritten) `updated` node is returned unchanged, below it the
`updated` node's body is replaced by the body rebuilt from the ORIGINAL
node's body. -/
def leave_FunctionDef (t : SkeletonTransformer) (original updated : Stmt) : Stmt :=
  match original with
  | .functionDef _ _ ds origBody _ _ =>
      let code_level := get_code_level t.file_level ds
      if t.min_level ≤ code_level then updated
      else withBody updated (rebuildBody t origBody)
  | _ => updated

/- The post-order traversal `module.visit(transformer)` with only
`leave_FunctionDef` overridden: children are rewritten first, then each
function-definition node is passed, as its original and rewritten
versions, to `leave_FunctionDef`; every other node is rebuilt from its
rewritten children. -/
mutual
def transformStmt (t : SkeletonTransformer) : Stmt → Stmt
  | .functionDef n p ds b r w =>
      leave_FunctionDef t (.functionDef n p ds b r w)
        (.functionDef n p ds (transformStmts t b) r w)
  | .classDef n b => .classDef n (transformStmts t b)
  | .compound k c b => .compound k c (transformStmts t b)
  | .simple body tc => .simple body tc
  | .emptyLine c => .emptyLine c
def transformStmts (t : SkeletonTransformer) : List Stmt → List Stmt
  | [] => []
  | s :: ss => transformStmt t s :: transformStmts t ss
end

/-- `create_skeleton` (extractor.py lines 109-120): compute the file-level
default, run the transformer over the module.  (Parsing and printing are
the identity on the tree under libcst's faithful-reprint contract, so the
embedding works directly on the tree.) -/
def create_skeleton (min_level : Int) (preserve_calls_as_comments : Bool)
    (m : Module) : Module :=
  let file_level := _get_file_level m
  transformStmts
    { min_level := min_level, file_level := file_level,
      preserve_calls := preserve_calls_as_comments } m

/-- `ProjectStats` (analyzer.py lines 5-30).  The `level_distribution`
dict is embedded as a partial map `Int → Option Int` (`none` = key
absent); Python dict equality is extensional, matching `funext`
equality of this representation.  Counters are Python ints. -/
structure ProjectStats where
  total_files : Int
  total_classes : Int
  total_functions : Int
  functions_with_level : Int
  level_distribution : Int → Option Int

/-- The default `level_distribution` value: levels 0 through 4 mapped
to count 0, every other key absent. -/
def defaultDistribution : Int → Option Int :=
  fun k => if 0 ≤ k ∧ k ≤ 4 then some 0 else none

/-- The histogram merge inside `ProjectStats.__add__`: start from a copy
of the left dict; for every key of the right dict, store
`left.get(key, 0) + right[key]`. -/
def addDistribution (a b : Int → Option Int) : Int → Option Int :=
  fun k =>
    match b k with
    | none => a k
    | some c => some ((a k).getD 0 + c)

/-- `ProjectStats.__add__`: every scalar field sums, histograms merge via
`addDistribution`. -/
def ProjectStats.add (a b : ProjectStats) : ProjectStats where
  total_files := a.total_files + b.total_files
  total_classes := a.total_classes + b.total_classes
  total_functions := a.total_functions + b.total_functions
  functions_with_level := a.functions_with_level + b.functions_with_level
  level_distribution := addDistribution a.level_distribution b.level_distribution

instance : Add ProjectStats := ⟨ProjectStats.add⟩

/-- `AnalysisVisitor._get_code_level` (analyzer.py lines 52-59): the same
decorator scan as the transformer's `get_code_level`, but with a
hard-coded default of `0` — the analyzer has no file-level parameter. -/
def analysisGetCodeLevel : List Expr → Int
  | [] => 0
  | d :: ds =>
      match markerLevel d with
      | some n => n
      | none => analysisGetCodeLevel ds

/-- `self.stats.level_distribution[level] = ...get(level, 0) + 1`. -/
def bumpDistribution (d : Int → Option Int) (level : Int) : Int → Option Int :=
  fun k => if k = level then some ((d level).getD 0 + 1) else d k

/- `AnalysisVisitor` traversal (`module.visit(visitor)`): `visit_ClassDef`
counts the class and returns `True` (children visited);
`visit_FunctionDef` counts the function, resolves its level with the
analyzer's own scan, counts it as leveled iff the level is `> 0`, bumps
the histogram bucket, and returns `False` (nested definitions are NOT
visited, decorators included); every other node is traversed with no
effect. -/
mutual
def visitStmt (acc : ProjectStats) : Stmt → ProjectStats
  | .functionDef _ _ ds _ _ _ =>
      let level := analysisGetCodeLevel ds
      { acc with
        total_functions := acc.total_functions + 1,
        functions_with_level :=
          acc.functions_with_level + (if 0 < level then 1 else 0),
        level_distribution := bumpDistribution acc.level_distribution level }
  | .classDef _ b => visitStmts { acc with total_classes := acc.total_classes + 1 } b
  | .compound _ _ b => visitStmts acc b
  | .simple _ _ => acc
  | .emptyLine _ => acc
def visitStmts (acc : ProjectStats) : List Stmt → ProjectStats
  | [] => acc
  | s :: ss => visitStmts (visitStmt acc s) ss
end

/-- `analyze_file`: visit the module with a fresh
`ProjectStats(total_files=1)` (all other fields at their dataclass
defaults). -/
def analyze_file (m : Module) : ProjectStats :=
  visitStmts
    { total_files := 1, total_classes := 0, total_functions := 0,
      functions_with_level := 0, level_distribution := defaultDistribution } m

/- Whether a function-definition node occurs anywhere in a statement
list (used to state that an elided body carries no trace of nested
function definitions). -/
mutual
def hasFunctionDefStmt : Stmt → Bool
  | .functionDef _ _ _ _ _ _ => true
  | .classDef _ b => hasFunctionDefStmts b
  | .compound _ _ b => hasFunctionDefStmts b
  | .simple _ _ => false
  | .emptyLine _ => false
def hasFunctionDefStmts : List Stmt → Bool
  | [] => false
  | s :: ss => hasFunctionDefStmt s || hasFunctionDefStmts ss
end

/- The (original) function-definition nodes that the transformer's
traversal elides: the traversal mirrors `transformStmt`, and a
function-definition node is recorded exactly when `leave_FunctionDef`
takes its rebuild branch, i.e. when its resolved level is strictly
below `min_level` (extractor.py line 47). -/
mutual
def elidedStmt (t : SkeletonTransformer) : Stmt → List Stmt
  | .functionDef n p ds b r w =>
      elidedStmts t b ++
        (if get_code_level t.file_level ds < t.min_level then
          [.functionDef n p ds b r w]
        else [])
  | .classDef _ b => elidedStmts t b
  | .compound _ _ b => elidedStmts t b
  | .simple _ _ => []
  | .emptyLine _ => []
def elidedStmts (t : SkeletonTransformer) : List Stmt → List Stmt
  | [] => []
  | s :: ss => elidedStmt t s ++ elidedStmts t ss
end

/-- Field accessor of a function-definition node: its name. -/
def fnName : Stmt → Option String
  | .functionDef n _ _ _ _ _ => some n
  | _ => none

/-- Field accessor of a function-definition node: its parameter list. -/
def fnParams : Stmt → Option String
  | .functionDef _ p _ _ _ _ => some p
  | _ => none

/-- Field accessor of a function-definition node: its decorator list. -/
def fnDecorators : Stmt → Option (List Expr)
  | .functionDef _ _ ds _ _ _ => some ds
  | _ => none

/-- Field accessor of a function-definition node: its body. -/
def fnBody : Stmt → Option (List Stmt)
  | .functionDef _ _ _ b _ _ => some b
  | _ => none

/-- Field accessor of a function-definition node: its return annotation. -/
def fnReturns : Stmt → Option (Option String)
  | .functionDef _ _ _ _ r _ => some r
  | _ => none

/-- Field accessor of a function-definition node: its remaining
(whitespace and formatting) fields. -/
def fnWhitespace : Stmt → Option String
  | .functionDef _ _ _ _ _ w => some w
  | _ => none

section Lemmas

/-- A matched marker level is the value of an integer literal, hence
non-negative. -/
theorem markerLevel_nonneg {d : Expr} {n : Int} (h : markerLevel d = some n) :
    0 ≤ n := by
  unfold markerLevel at h
  split at h
  · split at h
    · split at h
      · exact (Option.some_inj.mp h) ▸ Int.ofNat_nonneg _
      · exact absurd h (by simp)
    · exact absurd h (by simp)
  · exact absurd h (by simp)

/-- If the file-level default is non-negative, every resolved level is
non-negative. -/
theorem get_code_level_nonneg (fl : Int) (hfl : 0 ≤ fl) :
    ∀ ds : List Expr, 0 ≤ get_code_level fl ds := by
  intro ds
  induction ds with
  | nil => simpa [get_code_level] using hfl
  | cons d ds ih =>
      unfold get_code_level
      cases h : markerLevel d with
      | none => simpa using ih
      | some n => simpa using markerLevel_nonneg h

/-- The file-level default extracted from a module is non-negative. -/
theorem _get_file_level_nonneg : ∀ m : Module, 0 ≤ _get_file_level m := by
  intro m
  induction m using _get_file_level.induct <;> simp_all [_get_file_level]

end Lemmas

section Lemmas2

/-- A docstring statement extracted by `_get_docstring_statement` is a
simple statement line, never a function definition. -/
theorem docstring_no_functionDef {b : List Stmt} {d : Stmt}
    (h : _get_docstring_statement b = some d) : hasFunctionDefStmt d = false := by
  unfold _get_docstring_statement at h
  split at h
  · injection h with h
    rw [← h]
    rfl
  · injection h with h
    rw [← h]
    rfl
  · exact absurd h (by simp)

/-- A statement list is free of function definitions iff each of its
members is. -/
theorem hasFunctionDefStmts_eq_false_iff (l : List Stmt) :
    hasFunctionDefStmts l = false ↔ ∀ s ∈ l, hasFunctionDefStmt s = false := by
  induction l with
  | nil => simp [hasFunctionDefStmts]
  | cons s ss ih => simp [hasFunctionDefStmts, ih]

/-- A member of the docstring part of a rebuilt body is free of function
definitions. -/
theorem mem_docPart {b : List Stmt} {s : Stmt}
    (hs : s ∈ (match _get_docstring_statement b with
      | some d => [d]
      | none => [])) : hasFunctionDefStmt s = false := by
  cases h : _get_docstring_statement b with
  | none =>
      rw [h] at hs
      exact absurd hs (by simp)
  | some d =>
      rw [h] at hs
      simp only [List.mem_singleton] at hs
      rw [hs]
      exact docstring_no_functionDef h

/-- A synthesized call-comment line is free of function definitions. -/
theorem mem_callLines {l : List Expr} {s : Stmt}
    (hs : s ∈ l.filterMap (fun c =>
      if isErrorCall c = true then none
      else some (Stmt.emptyLine (some ("# → " ++ renderExpr c))))) :
    hasFunctionDefStmt s = false := by
  rcases List.mem_filterMap.mp hs with ⟨c, _, hc⟩
  split at hc
  · exact absurd hc (by simp)
  · injection hc with hc
    rw [← hc]
    rfl

/-- A synthesized comment line is free of function definitions. -/
theorem mem_commentMap {l : List String} {s : Stmt}
    (hs : s ∈ l.map (fun c => Stmt.emptyLine (some c))) :
    hasFunctionDefStmt s = false := by
  rcases List.mem_map.mp hs with ⟨c, _, hc⟩
  rw [← hc]
  rfl

/-- The rebuilt skeleton body carries no function definition: it is made
only of the docstring line, synthesized comment lines, and the `pass`
placeholder. -/
theorem rebuildBody_no_functionDef (t : SkeletonTransformer) (b : List Stmt) :
    hasFunctionDefStmts (rebuildBody t b) = false := by
  rw [hasFunctionDefStmts_eq_false_iff]
  intro s hs
  unfold rebuildBody at hs
  simp only [List.mem_append] at hs
  cases hp : t.preserve_calls <;> simp only [hp] at hs <;>
    simp only [Bool.false_and, Bool.true_and, if_false, if_true, Bool.false_eq_true,
      List.isEmpty_nil, Bool.not_true, Bool.not_false, List.append_nil, List.nil_append,
      List.mem_singleton, List.mem_cons] at hs
  · rcases hs with ((hs | hs) | hs) | hs | hs
    · exact mem_docPart hs
    · exact absurd hs (by simp)
    · split at hs
      · exact mem_commentMap hs
      · exact absurd hs (by simp)
    · rw [hs]
      rfl
    · exact absurd hs (by simp)
  · rcases hs with ((hs | hs) | hs) | hs | hs
    · exact mem_docPart hs
    · split at hs
      · rcases List.mem_cons.mp hs with hs | hs
        · rw [hs]
          rfl
        · exact mem_callLines hs
      · exact absurd hs (by simp)
    · split at hs
      · simp only [List.mem_append] at hs
        rcases hs with hs | hs
        · split at hs
          · simp only [List.mem_singleton] at hs
            rw [hs]
            rfl
          · exact absurd hs (by simp)
        · exact mem_commentMap hs
      · exact absurd hs (by simp)
    · rw [hs]
      rfl
    · exact absurd hs (by simp)

end Lemmas2

/-- C4: a function is elided iff its resolved level (read from the
original node's decorators, with the file-level default) is strictly
below `min_level`; at or above the threshold the post-order-rewritten
subtree is returned unchanged, strictly below it the rewritten node's
body is replaced by the body rebuilt from the original body. -/
theorem claim_C4_elision_threshold (t : SkeletonTransformer)
    (n p : String) (ds : List Expr) (b : List Stmt) (r : Option String)
    (w : String) :
    (t.min_level ≤ get_code_level t.file_level ds →
      transformStmt t (.functionDef n p ds b r w)
        = .functionDef n p ds (transformStmts t b) r w)
    ∧ (get_code_level t.file_level ds < t.min_level →
      transformStmt t (.functionDef n p ds b r w)
        = .functionDef n p ds (rebuildBody t b) r w) := by
  constructor
  · intro h
    simp [transformStmt, leave_FunctionDef, h]
  · intro h
    simp [transformStmt, leave_FunctionDef, withBody, not_le.mpr h]

/-- Witness for C4: a marker-free function under file level 0 is kept
unchanged at threshold 0 and rebuilt at threshold 1. -/
theorem claim_C4_elision_threshold_witness :
    transformStmt ⟨0, 0, true⟩
        (.functionDef "f" "" [] [Stmt.simple [SmallStmt.pass] none] none "")
      = .functionDef "f" ""
          [] (transformStmts ⟨0, 0, true⟩ [Stmt.simple [SmallStmt.pass] none])
          none ""
    ∧ transformStmt ⟨1, 0, true⟩
        (.functionDef "f" "" [] [Stmt.simple [SmallStmt.pass] none] none "")
      = .functionDef "f" ""
          [] (rebuildBody ⟨1, 0, true⟩ [Stmt.simple [SmallStmt.pass] none])
          none "" :=
  ⟨(claim_C4_elision_threshold ⟨0, 0, true⟩ "f" "" [] _ none "").1 (by decide),
   (claim_C4_elision_threshold ⟨1, 0, true⟩ "f" "" [] _ none "").2 (by decide)⟩

/-- C1: for a function whose resolved level is strictly below
`min_level`, the transformer's result body is `rebuildBody` applied to
the ORIGINAL (pre-rewrite) body — the post-order-rewritten body
(`transformStmts t b`) does not enter it — and the rebuilt body contains
no function-definition node anywhere, so no trace of a nested function
definition survives. -/
theorem claim_C1_elision_uses_original_body (t : SkeletonTransformer)
    (n p : String) (ds : List Expr) (b : List Stmt) (r : Option String)
    (w : String)
    (h : get_code_level t.file_level ds < t.min_level) :
    transformStmt t (.functionDef n p ds b r w)
      = .functionDef n p ds (rebuildBody t b) r w
    ∧ hasFunctionDefStmts (rebuildBody t b) = false := by
  constructor
  · simp [transformStmt, leave_FunctionDef, withBody, not_le.mpr h]
  · exact rebuildBody_no_functionDef t b

/-- Witness for C1: a level-0 function containing a nested
`@code_level(5)` function, elided at threshold 1 — the skeleton body
keeps no function definition. -/
theorem claim_C1_elision_uses_original_body_witness :
    transformStmt ⟨1, 0, true⟩
        (.functionDef "outer" "" []
          [.functionDef "inner" ""
            [.call (.name "code_level") [.integer 5]]
            [Stmt.simple [SmallStmt.pass] none] none ""]
          none "")
      = .functionDef "outer" "" []
          (rebuildBody ⟨1, 0, true⟩
            [.functionDef "inner" ""
              [.call (.name "code_level") [.integer 5]]
              [Stmt.simple [SmallStmt.pass] none] none ""])
          none ""
    ∧ hasFunctionDefStmts
        (rebuildBody ⟨1, 0, true⟩
          [.functionDef "inner" ""
            [.call (.name "code_level") [.integer 5]]
            [Stmt.simple [SmallStmt.pass] none] none ""]) = false :=
  claim_C1_elision_uses_original_body ⟨1, 0, true⟩ "outer" "" [] _ none ""
    (by decide)

/-- C5: `get_code_level` returns the integer literal of the first
decorator shaped as a `code_level(<Integer>, ...)` invocation, skipping
any earlier decorators that do not match; with no matching decorator it
returns the file-level default.  Malformed marker usages — zero
arguments, a non-integer first argument, a non-call decorator, or a
different callee name — never match. -/
theorem claim_C5_first_marker_wins (fl : Int) :
    (∀ ds : List Expr, (∀ d ∈ ds, markerLevel d = none) →
      get_code_level fl ds = fl)
    ∧ (∀ (pre : List Expr) (d : Expr) (post : List Expr) (n : Int),
        (∀ d' ∈ pre, markerLevel d' = none) → markerLevel d = some n →
        get_code_level fl (pre ++ d :: post) = n)
    ∧ (∀ (f a : Expr) (args : List Expr) (v : String),
        markerLevel (.call f []) = none
        ∧ (v ≠ "code_level" → markerLevel (.call (.name v) (a :: args)) = none)
        ∧ ((∀ k : Nat, a ≠ .integer k) →
            markerLevel (.call (.name "code_level") (a :: args)) = none)
        ∧ markerLevel (.name v) = none
        ∧ markerLevel (.integer 3) = none) := by
  refine ⟨?_, ?_, ?_⟩
  · intro ds hds
    induction ds with
    | nil => rfl
    | cons d ds ih =>
        unfold get_code_level
        rw [hds d (List.mem_cons_self d ds)]
        exact ih (fun d' hd' => hds d' (List.mem_cons_of_mem d hd'))
  · intro pre d post n hpre hd
    induction pre with
    | nil =>
        unfold get_code_level
        rw [List.nil_append] at *
        simp [hd]
    | cons d' pre ih =>
        rw [List.cons_append]
        unfold get_code_level
        rw [hpre d' (List.mem_cons_self d' pre)]
        exact ih (fun x hx => hpre x (List.mem_cons_of_mem d' hx))
  · intro f a args v
    refine ⟨?_, ?_, ?_, ?_, ?_⟩
    · cases f <;> rfl
    · intro hv
      simp [markerLevel, hv]
    · intro ha
      cases a
      case integer k => exact absurd rfl (ha k)
      all_goals rfl
    · rfl
    · rfl

/-- Witness for C5: a `@staticmethod`-like decorator is skipped,
`@code_level(3)` matches, later decorators are ignored; a marker-free
list falls back to the file default 7; `code_level()` with zero
arguments does not match. -/
theorem claim_C5_first_marker_wins_witness :
    get_code_level 7 [Expr.name "staticmethod"] = 7
    ∧ get_code_level 7
        [Expr.name "staticmethod",
         Expr.call (Expr.name "code_level") [Expr.integer 3],
         Expr.call (Expr.name "code_level") [Expr.integer 9]] = 3
    ∧ markerLevel (Expr.call (Expr.name "wraps") [Expr.integer 3]) = none
    ∧ markerLevel (Expr.call (Expr.name "code_level")
        [Expr.simpleString "x"]) = none :=
  ⟨(claim_C5_first_marker_wins 7).1 [Expr.name "staticmethod"] (by decide),
   (claim_C5_first_marker_wins 7).2.1 [Expr.name "staticmethod"]
     (Expr.call (Expr.name "code_level") [Expr.integer 3])
     [Expr.call (Expr.name "code_level") [Expr.integer 9]] 3
     (by decide) (by decide),
   (((claim_C5_first_marker_wins 7).2.2 (Expr.name "wraps") (Expr.integer 3)
      [] "wraps").2.1) (by decide),
   (((claim_C5_first_marker_wins 7).2.2 (Expr.name "code_level")
      (Expr.simpleString "x") [] "code_level").2.2.1)
     (fun k h => Expr.noConfusion h)⟩

/-- C6: an elided function's replacement body always ends in the single
`pass` placeholder statement and is therefore never empty, whatever the
original body contained. -/
theorem claim_C6_pass_placeholder (t : SkeletonTransformer)
    (n p : String) (ds : List Expr) (b : List Stmt) (r : Option String)
    (w : String)
    (h : get_code_level t.file_level ds < t.min_level) :
    ∃ nb, transformStmt t (.functionDef n p ds b r w)
        = .functionDef n p ds nb r w
      ∧ nb.getLast? = some (Stmt.simple [SmallStmt.pass] none)
      ∧ nb ≠ [] := by
  refine ⟨rebuildBody t b, ?_, ?_, ?_⟩
  · simp [transformStmt, leave_FunctionDef, withBody, not_le.mpr h]
  · unfold rebuildBody
    simp only [← List.append_assoc, List.getLast?_concat]
  · unfold rebuildBody
    simp

/-- Witness for C6: an empty original body still yields a non-empty
replacement body ending in `pass`. -/
theorem claim_C6_pass_placeholder_witness :
    ∃ nb, transformStmt ⟨1, 0, true⟩ (.functionDef "f" "" [] [] none "")
        = .functionDef "f" "" [] nb none ""
      ∧ nb.getLast? = some (Stmt.simple [SmallStmt.pass] none)
      ∧ nb ≠ [] :=
  claim_C6_pass_placeholder ⟨1, 0, true⟩ "f" "" [] [] none "" (by decide)

/-- C10: elision changes only the body field: the result equals the
post-order-rewritten node with its body replaced through `withBody`
(the embedding of `with_changes(body=...)`), and `withBody` preserves
the name, parameters, decorators, return annotation and the remaining
(whitespace) fields of whatever node it is applied to. -/
theorem claim_C10_elision_only_body (t : SkeletonTransformer)
    (n p : String) (ds : List Expr) (b : List Stmt) (r : Option String)
    (w : String)
    (h : get_code_level t.file_level ds < t.min_level) :
    transformStmt t (.functionDef n p ds b r w)
      = withBody (.functionDef n p ds (transformStmts t b) r w)
          (rebuildBody t b)
    ∧ (∀ (s : Stmt) (nb : List Stmt),
        fnName (withBody s nb) = fnName s
        ∧ fnParams (withBody s nb) = fnParams s
        ∧ fnDecorators (withBody s nb) = fnDecorators s
        ∧ fnReturns (withBody s nb) = fnReturns s
        ∧ fnWhitespace (withBody s nb) = fnWhitespace s)
    ∧ fnBody (transformStmt t (.functionDef n p ds b r w))
        = some (rebuildBody t b) := by
  refine ⟨?_, ?_, ?_⟩
  · simp [transformStmt, leave_FunctionDef, not_le.mpr h]
  · intro s nb
    cases s <;>
      simp [withBody, fnName, fnParams, fnDecorators, fnReturns, fnWhitespace]
  · simp [transformStmt, leave_FunctionDef, withBody, fnBody, not_le.mpr h]

/-- Witness for C10: eliding a decorated, annotated function keeps its
name, parameters, decorators and annotation. -/
theorem claim_C10_elision_only_body_witness :
    transformStmt ⟨2, 0, true⟩
        (.functionDef "g" "x, y" [.call (.name "code_level") [.integer 1]]
          [Stmt.simple [SmallStmt.pass] none] (some "int") " ")
      = withBody
          (.functionDef "g" "x, y" [.call (.name "code_level") [.integer 1]]
            (transformStmts ⟨2, 0, true⟩ [Stmt.simple [SmallStmt.pass] none])
            (some "int") " ")
          (rebuildBody ⟨2, 0, true⟩ [Stmt.simple [SmallStmt.pass] none])
    ∧ (∀ (s : Stmt) (nb : List Stmt),
        fnName (withBody s nb) = fnName s
        ∧ fnParams (withBody s nb) = fnParams s
        ∧ fnDecorators (withBody s nb) = fnDecorators s
        ∧ fnReturns (withBody s nb) = fnReturns s
        ∧ fnWhitespace (withBody s nb) = fnWhitespace s)
    ∧ fnBody (transformStmt ⟨2, 0, true⟩
        (.functionDef "g" "x, y" [.call (.name "code_level") [.integer 1]]
          [Stmt.simple [SmallStmt.pass] none] (some "int") " "))
        = some (rebuildBody ⟨2, 0, true⟩ [Stmt.simple [SmallStmt.pass] none]) :=
  claim_C10_elision_only_body ⟨2, 0, true⟩ "g" "x, y"
    [.call (.name "code_level") [.integer 1]]
    [Stmt.simple [SmallStmt.pass] none] (some "int") " " (by decide)

/- Monotonicity of the elided-function collection in the threshold:
whatever a lower threshold elides, a higher one elides too. -/
mutual
theorem elidedMonoStmt (fl : Int) (pc : Bool) (a b : Int) (h : a ≤ b) :
    ∀ s : Stmt, (elidedStmt ⟨a, fl, pc⟩ s).Sublist (elidedStmt ⟨b, fl, pc⟩ s)
  | .simple bd tc => List.Sublist.refl _
  | .emptyLine c => List.Sublist.refl _
  | .functionDef n p ds bd r w => by
      have ih := elidedMonoStmts fl pc a b h bd
      unfold elidedStmt
      apply List.Sublist.append ih
      by_cases hlt : get_code_level fl ds < a
      · rw [if_pos hlt, if_pos (lt_of_lt_of_le hlt h)]
      · rw [if_neg hlt]
        exact List.nil_sublist _
  | .classDef n bd => by
      unfold elidedStmt
      exact elidedMonoStmts fl pc a b h bd
  | .compound k c bd => by
      unfold elidedStmt
      exact elidedMonoStmts fl pc a b h bd
theorem elidedMonoStmts (fl : Int) (pc : Bool) (a b : Int) (h : a ≤ b) :
    ∀ ss : List Stmt,
      (elidedStmts ⟨a, fl, pc⟩ ss).Sublist (elidedStmts ⟨b, fl, pc⟩ ss)
  | [] => List.Sublist.refl _
  | s :: ss => by
      unfold elidedStmts
      exact (elidedMonoStmt fl pc a b h s).append (elidedMonoStmts fl pc a b h ss)
end

/-- C7: for a fixed file-level default and a fixed `preserve_calls`
setting, the list of function definitions the transformer elides at
threshold `a` is a sublist (in particular a subset) of the list elided
at any threshold `b ≥ a`. -/
theorem claim_C7_elided_set_monotone (fl : Int) (pc : Bool) (a b : Int)
    (h : a ≤ b) (ss : List Stmt) :
    (elidedStmts ⟨a, fl, pc⟩ ss).Sublist (elidedStmts ⟨b, fl, pc⟩ ss) :=
  elidedMonoStmts fl pc a b h ss

/-- Witness for C7: thresholds 0 and 5 over a one-function module. -/
theorem claim_C7_elided_set_monotone_witness :
    (elidedStmts ⟨0, 0, true⟩
      [Stmt.functionDef "f" "" [] [] none ""]).Sublist
    (elidedStmts ⟨5, 0, true⟩
      [Stmt.functionDef "f" "" [] [] none ""]) :=
  claim_C7_elided_set_monotone 0 true 0 5 (by decide)
    [Stmt.functionDef "f" "" [] [] none ""]

/- At a non-positive threshold every function is kept — every resolved
level is a non-negative integer literal — so the traversal is the
identity. -/
mutual
theorem transformStmt_id (t : SkeletonTransformer) (hmin : t.min_level ≤ 0)
    (hfl : 0 ≤ t.file_level) : ∀ s : Stmt, transformStmt t s = s
  | .simple bd tc => rfl
  | .emptyLine c => rfl
  | .functionDef n p ds bd r w => by
      unfold transformStmt
      rw [transformStmts_id t hmin hfl bd]
      unfold leave_FunctionDef
      have hk : t.min_level ≤ get_code_level t.file_level ds :=
        le_trans hmin (get_code_level_nonneg _ hfl ds)
      simp [hk]
  | .classDef n bd => by
      unfold transformStmt
      rw [transformStmts_id t hmin hfl bd]
  | .compound k c bd => by
      unfold transformStmt
      rw [transformStmts_id t hmin hfl bd]
theorem transformStmts_id (t : SkeletonTransformer) (hmin : t.min_level ≤ 0)
    (hfl : 0 ≤ t.file_level) : ∀ ss : List Stmt, transformStmts t ss = ss
  | [] => rfl
  | s :: ss => by
      unfold transformStmts
      rw [transformStmt_id t hmin hfl s, transformStmts_id t hmin hfl ss]
end

/-- C9: with any threshold `min_level ≤ 0`, `create_skeleton` is the
identity on the module tree (hence, under libcst's faithful-reprint
contract, on the source text): every resolvable level comes from an
integer literal or the default 0, so it is non-negative and every
function is kept. -/
theorem claim_C9_identity_at_nonpositive_threshold (min_level : Int)
    (pc : Bool) (m : Module) (h : min_level ≤ 0) :
    create_skeleton min_level pc m = m := by
  unfold create_skeleton
  exact transformStmts_id _ h (_get_file_level_nonneg m) m

/-- Witness for C9: threshold 0 leaves a module with a marked function
and a nested function untouched. -/
theorem claim_C9_identity_at_nonpositive_threshold_witness :
    create_skeleton 0 true
      [Stmt.simple [SmallStmt.assign [Expr.name "__code_level__"]
        (Expr.integer 1)] none,
       Stmt.functionDef "f" "" [Expr.call (Expr.name "code_level")
        [Expr.integer 2]]
        [Stmt.functionDef "g" "" [] [Stmt.simple [SmallStmt.pass] none]
          none ""] none ""]
      = [Stmt.simple [SmallStmt.assign [Expr.name "__code_level__"]
          (Expr.integer 1)] none,
         Stmt.functionDef "f" "" [Expr.call (Expr.name "code_level")
          [Expr.integer 2]]
          [Stmt.functionDef "g" "" [] [Stmt.simple [SmallStmt.pass] none]
            none ""] none ""] :=
  claim_C9_identity_at_nonpositive_threshold 0 true _ (by decide)

/-- Histogram merge is commutative: an absent key defers to the other
operand, a shared key sums. -/
theorem addDistribution_comm (f g : Int → Option Int) :
    addDistribution f g = addDistribution g f := by
  funext k
  unfold addDistribution
  cases hf : f k <;> cases hg : g k
  all_goals simp
  all_goals omega

/-- Histogram merge is associative. -/
theorem addDistribution_assoc (f g h : Int → Option Int) :
    addDistribution (addDistribution f g) h
      = addDistribution f (addDistribution g h) := by
  funext k
  unfold addDistribution
  cases hf : f k <;> cases hg : g k <;> cases hh : h k
  all_goals simp
  all_goals omega

/-- C8: `ProjectStats` addition is total (it is a total Lean function),
commutative and associative: every scalar field sums, and the level
histograms merge by summing counts on shared keys and keeping the keys
of either operand. -/
theorem claim_C8_stats_add_comm_assoc (a b c : ProjectStats) :
    a + b = b + a ∧ (a + b) + c = a + (b + c) := by
  obtain ⟨a1, a2, a3, a4, ad⟩ := a
  obtain ⟨b1, b2, b3, b4, bd⟩ := b
  obtain ⟨c1, c2, c3, c4, cd⟩ := c
  constructor
  · show ProjectStats.add _ _ = ProjectStats.add _ _
    simp only [ProjectStats.add, ProjectStats.mk.injEq]
    exact ⟨by omega, by omega, by omega, by omega, addDistribution_comm _ _⟩
  · show ProjectStats.add (ProjectStats.add _ _) _
      = ProjectStats.add _ (ProjectStats.add _ _)
    simp only [ProjectStats.add, ProjectStats.mk.injEq]
    exact ⟨by omega, by omega, by omega, by omega, addDistribution_assoc _ _ _⟩

/-- A file whose file-level default is 2 (`__code_level__ = 2`) holding
one function with no marker decorator. -/
def fileWithDefaultTwo : Module :=
  [Stmt.simple [SmallStmt.assign [Expr.name "__code_level__"]
    (Expr.integer 2)] none,
   Stmt.functionDef "f" "" [] [Stmt.simple [SmallStmt.pass] none] none ""]

/-- Counterexample to C2: in a file whose file-level default is 2, the
analyzer records the marker-free function in bucket 0 (bucket 2 stays at
its default count 0) and does not count it as having an explicit level —
the claim predicts bucket 2 and an explicit-level count of 1. -/
theorem claim_C2_counterexample :
    _get_file_level fileWithDefaultTwo = 2
    ∧ (analyze_file fileWithDefaultTwo).total_functions = 1
    ∧ (analyze_file fileWithDefaultTwo).level_distribution 2 = some 0
    ∧ (analyze_file fileWithDefaultTwo).level_distribution 0 = some 1
    ∧ (analyze_file fileWithDefaultTwo).functions_with_level = 0 :=
  ⟨rfl, rfl, rfl, rfl, rfl⟩

/-- With no matching marker decorator the analyzer's scan yields 0. -/
theorem analysisGetCodeLevel_no_marker {ds : List Expr}
    (h : ∀ d ∈ ds, markerLevel d = none) : analysisGetCodeLevel ds = 0 := by
  induction ds with
  | nil => rfl
  | cons d ds ih =>
      unfold analysisGetCodeLevel
      rw [h d (List.mem_cons_self d ds)]
      exact ih (fun d' hd' => h d' (List.mem_cons_of_mem d hd'))

/-- C2 amended: the analyzer resolves levels with the same decorator
scan as the transformer but with a hard-coded default of 0 — the
file-level `__code_level__` default is ignored — so a function with no
matching marker is recorded in histogram bucket 0 and is never counted
as having an explicit level. -/
theorem claim_C2_analyzer_fixed_default_zero :
    (∀ ds : List Expr, analysisGetCodeLevel ds = get_code_level 0 ds)
    ∧ (∀ (acc : ProjectStats) (n p : String) (ds : List Expr)
        (b : List Stmt) (r : Option String) (w : String),
        (∀ d ∈ ds, markerLevel d = none) →
        visitStmt acc (.functionDef n p ds b r w)
          = { acc with
              total_functions := acc.total_functions + 1,
              level_distribution :=
                bumpDistribution acc.level_distribution 0 }) := by
  constructor
  · intro ds
    induction ds with
    | nil => rfl
    | cons d ds ih =>
        unfold analysisGetCodeLevel get_code_level
        cases markerLevel d
        · exact ih
        · rfl
  · intro acc n p ds b r w hds
    unfold visitStmt
    rw [analysisGetCodeLevel_no_marker hds]
    simp

/-- Witness for the amended C2: a marker-free function bumps only the
function counter and bucket 0 of a fresh per-file statistics value. -/
theorem claim_C2_analyzer_fixed_default_zero_witness :
    analysisGetCodeLevel [Expr.name "staticmethod"]
      = get_code_level 0 [Expr.name "staticmethod"]
    ∧ visitStmt ⟨1, 0, 0, 0, defaultDistribution⟩
        (.functionDef "f" "" [Expr.name "staticmethod"] [] none "")
      = { (⟨1, 0, 0, 0, defaultDistribution⟩ : ProjectStats) with
          total_functions := (1 : Int) - 1 + 1,
          level_distribution := bumpDistribution defaultDistribution 0 } :=
  ⟨claim_C2_analyzer_fixed_default_zero.1 [Expr.name "staticmethod"],
   claim_C2_analyzer_fixed_default_zero.2 ⟨1, 0, 0, 0, defaultDistribution⟩
     "f" "" [Expr.name "staticmethod"] [] none "" (by
       intro d hd
       simp only [List.mem_singleton] at hd
       rw [hd]
       rfl)⟩

/-- A body whose only call is `ValueError()` — an Error-named bare call,
which the call filter removes. -/
def errorOnlyBody : List Stmt :=
  [Stmt.simple [SmallStmt.expr (Expr.call (Expr.name "ValueError") [])] none]

/-- A module holding one marker-free function over `errorOnlyBody`. -/
def errorOnlyModule : Module :=
  [Stmt.functionDef "f" "" [] errorOnlyBody none ""]

/-- Counterexample to C3: every collected call of `errorOnlyBody` is an
Error-named bare call, so the claim predicts no header comment; the
transformer still emits the `# Important calls:` header (with no call
lines), because the header is emitted whenever the PRE-filter collected
call list is non-empty. -/
theorem claim_C3_counterexample :
    (collectCallsStmts errorOnlyBody).isEmpty = false
    ∧ (collectCallsStmts errorOnlyBody).all isErrorCall = true
    ∧ create_skeleton 1 true errorOnlyModule
      = [Stmt.functionDef "f" "" []
          [Stmt.emptyLine (some "# Important calls:"),
           Stmt.simple [SmallStmt.pass] none] none ""] :=
  ⟨rfl, rfl, rfl⟩

/-- A docstring statement extracted by `_get_docstring_statement` is a
simple statement line. -/
theorem docstring_is_simple {b : List Stmt} {d : Stmt}
    (h : _get_docstring_statement b = some d) :
    ∃ sm tc, d = Stmt.simple sm tc := by
  unfold _get_docstring_statement at h
  split at h
  · injection h with h
    exact ⟨_, _, h.symm⟩
  · injection h with h
    exact ⟨_, _, h.symm⟩
  · exact absurd h (by simp)

/-- C3 amended: with `preserve_calls` on, and provided the original body
does not itself contain a `# Important calls:` comment, the header line
appears in the rebuilt body iff the collected call list is non-empty
BEFORE the Error-name filter; a body whose every call is Error-named
still produces the header, followed by no call lines. -/
theorem claim_C3_header_iff_calls_collected (t : SkeletonTransformer)
    (b : List Stmt) (hp : t.preserve_calls = true)
    (hc : "# Important calls:" ∉ collectCommentsStmts b) :
    (Stmt.emptyLine (some "# Important calls:") ∈ rebuildBody t b
      ↔ (collectCallsStmts b).isEmpty = false) := by
  constructor
  · intro h
    cases hval : (collectCallsStmts b).isEmpty with
    | false => rfl
    | true =>
        exfalso
        unfold rebuildBody at h
        simp [hp, hval] at h
        rcases h with h | ⟨-, h⟩
        · cases hdoc : _get_docstring_statement b with
          | none =>
              rw [hdoc] at h
              exact absurd h (by simp)
          | some d =>
              obtain ⟨sm, tc, rfl⟩ := docstring_is_simple hdoc
              rw [hdoc] at h
              simp at h
        · exact hc h
  · intro hval
    unfold rebuildBody
    simp [hp, hval]

/-- Witness for the amended C3: `errorOnlyBody` has a non-empty
collected call list and no comments, so the header appears. -/
theorem claim_C3_header_iff_calls_collected_witness :
    Stmt.emptyLine (some "# Important calls:")
      ∈ rebuildBody ⟨1, 0, true⟩ errorOnlyBody :=
  (claim_C3_header_iff_calls_collected ⟨1, 0, true⟩ errorOnlyBody rfl
    (by simp [errorOnlyBody, collectCommentsStmts, collectCommentsStmt])).mpr
    rfl

end CSkel
